import Mathlib

/-!
Verification of the streaming chat core of `src/main.py` (Ollama_Chat).

The only logic in the repository is the generator function `chat_with_ollama`,
which (1) adapts the Gradio history format to the Ollama message list,
(2) opens a streaming backend call, (3) accumulates fragments and yields
the running concatenation after each one, and (4) converts any exception
into a single synthetic error message yielded in-band.

We embed the function shallowly: the backend is a function from the
request payload to a finite trace of events, where each event is either a
well-formed chunk carrying its `content` text, or an exception raised at
that point (connection failure before any chunk, mid-stream failure, or a
malformed chunk whose field access raises).  The Python try/except is
modelled explicitly: `bodyRun` is the try-body semantics, returning the
values yielded so far together with the exception (if any) escaping the
body; `chatRun` wraps it with the handler.
-/

/-- The module-level configuration constant DEFAULT_MODEL of main.py. -/
def DEFAULT_MODEL : String := "qwen3:1.7b"

/-- A single-quote character as a string (used inside the error text). -/
def squote : String := String.singleton (Char.ofNat 39)

/-- A role-tagged message, the unit consumed by the backend
(a Python dict with keys role and content in the source). -/
structure Message where
  role : String
  content : String
deriving DecidableEq

/-- The transcript adapter of main.py lines 23-29: for each history pair
append a user message and an assistant message, then append the new user
message.  The Python loop is embedded as a left fold over the history. -/
def buildMessages (history : List (String × String)) (message : String) :
    List Message :=
  (history.foldl
    (fun msgs p => msgs ++ [⟨"user", p.1⟩, ⟨"assistant", p.2⟩]) [])
    ++ [⟨"user", message⟩]

/-- One observable event of the backend stream: either a well-formed chunk
whose message.content field is the given string, or an exception raised at
this point of the interaction (connection refused before any chunk,
network failure mid-stream, or a malformed chunk whose field access
raises), rendered as the exception text that the f-string interpolates. -/
inductive BEvent where
  | frag (content : String)
  | err (e : String)
deriving DecidableEq

/-- The synthetic error string built in the except-handler of main.py
line 54, with the exception text and DEFAULT_MODEL interpolated. -/
def error_message (e : String) : String :=
  "An error occurred: " ++ e ++ ". \n\n" ++
    "- Is the Ollama service running? " ++ "\n- Is the model " ++
    squote ++ DEFAULT_MODEL ++ squote ++ " pulled and spelled correctly?"

/-- Semantics of the try-body of main.py lines 21-48 from a given value of
the accumulator response: consume the backend trace, after each
well-formed chunk append its content to the accumulator and yield the
updated accumulator; stop at the first raised exception.  Returns the
yielded values and the exception (if any) escaping the body. -/
def bodyRun (acc : String) : List BEvent → List String × Option String
  | [] => ([], none)
  | BEvent.frag part :: rest =>
      match bodyRun (acc ++ part) rest with
      | (ys, ex) => ((acc ++ part) :: ys, ex)
  | BEvent.err e :: _ => ([], some e)

/-- Full semantics of one chat_with_ollama invocation: build the message
list, run the try-body against the backend trace for that payload, and if
an exception escapes the body, catch it and yield the synthetic error
message (main.py lines 50-55).  The second component is the exception
propagated to the caller, if any. -/
def chatRun (message : String) (history : List (String × String))
    (backend : List Message → List BEvent) : List String × Option String :=
  match bodyRun "" (backend (buildMessages history message)) with
  | (ys, none) => (ys, none)
  | (ys, some e) => (ys ++ [error_message e], none)

/-- The sequence of values yielded by one chat_with_ollama invocation. -/
def chat_with_ollama (message : String) (history : List (String × String))
    (backend : List Message → List BEvent) : List String :=
  (chatRun message history backend).1

/-- Concatenation of a list of strings in order, as the Python
accumulation loop computes it. -/
def concatAll (l : List String) : String :=
  l.foldl (fun a b => a ++ b) ""

/-- Helper describing the yields of the fragment loop from a given
accumulator: after each fragment the extended accumulator is emitted. -/
def scanAcc (acc : String) : List String → List String
  | [] => []
  | f :: fs => (acc ++ f) :: scanAcc (acc ++ f) fs

/- ### Basic lemmas about string folding -/

theorem foldl_append_str (l : List String) (x y : String) :
    l.foldl (fun a b => a ++ b) (x ++ y) =
      x ++ l.foldl (fun a b => a ++ b) y := by
  induction l generalizing y with
  | nil => rfl
  | cons f fs ih =>
      simp only [List.foldl_cons]
      rw [String.append_assoc, ih]

theorem concatAll_cons (f : String) (l : List String) :
    concatAll (f :: l) = f ++ concatAll l := by
  unfold concatAll
  simp only [List.foldl_cons]
  rw [show ("" : String) ++ f = f ++ "" by
        rw [String.empty_append, String.append_empty],
      foldl_append_str]

theorem scanAcc_length (fs : List String) (acc : String) :
    (scanAcc acc fs).length = fs.length := by
  induction fs generalizing acc with
  | nil => rfl
  | cons f fs ih => simp [scanAcc, ih]

theorem scanAcc_getElem? (fs : List String) (acc : String) (i : Nat)
    (hi : i < fs.length) :
    (scanAcc acc fs)[i]? = some (acc ++ concatAll (fs.take (i + 1))) := by
  induction fs generalizing acc i with
  | nil => exact absurd hi (by simp)
  | cons f fs ih =>
      cases i with
      | zero =>
          simp [scanAcc, List.take, concatAll_cons, concatAll,
            String.append_empty]
      | succ j =>
          have hj : j < fs.length := Nat.lt_of_succ_lt_succ hi
          simp only [scanAcc, List.getElem?_cons_succ]
          rw [ih (acc ++ f) j hj, List.take_succ_cons, concatAll_cons,
            String.append_assoc]

theorem concatAll_append (l1 l2 : List String) :
    concatAll (l1 ++ l2) = concatAll l1 ++ concatAll l2 := by
  induction l1 with
  | nil =>
      show concatAll l2 = concatAll [] ++ concatAll l2
      rw [show concatAll [] = "" from rfl, String.empty_append]
  | cons f l1 ih =>
      rw [List.cons_append, concatAll_cons, concatAll_cons, ih,
        String.append_assoc]

theorem concatAll_singleton (x : String) : concatAll [x] = x := by
  rw [concatAll_cons, show concatAll [] = "" from rfl, String.append_empty]

theorem concatAll_take_succ (fs : List String) (i : Nat)
    (hi : i < fs.length) :
    concatAll (fs.take (i + 1)) =
      concatAll (fs.take i) ++ fs.get ⟨i, hi⟩ := by
  rw [List.take_succ, concatAll_append, List.getElem?_eq_getElem hi]
  simp [concatAll_singleton]

/- ### Characterization of the try-body on the two trace shapes -/

theorem bodyRun_frags (fs : List String) (acc : String) :
    bodyRun acc (fs.map BEvent.frag) = (scanAcc acc fs, none) := by
  induction fs generalizing acc with
  | nil => rfl
  | cons f fs ih => simp [bodyRun, scanAcc, ih]

theorem bodyRun_frags_err (fs : List String) (e : String) (rest : List BEvent)
    (acc : String) :
    bodyRun acc (fs.map BEvent.frag ++ BEvent.err e :: rest) =
      (scanAcc acc fs, some e) := by
  induction fs generalizing acc with
  | nil => rfl
  | cons f fs ih => simp [bodyRun, scanAcc, ih]

theorem chat_frags (m : String) (h : List (String × String))
    (fs : List String) :
    chat_with_ollama m h (fun _ => fs.map BEvent.frag) = scanAcc "" fs := by
  simp [chat_with_ollama, chatRun, bodyRun_frags]

theorem chat_frags_err (m : String) (h : List (String × String))
    (fs : List String) (e : String) :
    chat_with_ollama m h (fun _ => fs.map BEvent.frag ++ [BEvent.err e]) =
      scanAcc "" fs ++ [error_message e] := by
  simp [chat_with_ollama, chatRun, bodyRun_frags_err]

/- ### Characterization of the transcript adapter -/

theorem foldl_msgs_init (h : List (String × String)) (init : List Message) :
    h.foldl (fun msgs p => msgs ++ [⟨"user", p.1⟩, ⟨"assistant", p.2⟩]) init =
      init ++
        h.foldl (fun msgs p => msgs ++ [⟨"user", p.1⟩, ⟨"assistant", p.2⟩])
          [] := by
  induction h generalizing init with
  | nil => simp
  | cons q h ih =>
      rw [List.foldl_cons, List.foldl_cons,
        ih (init ++ [(⟨"user", q.1⟩ : Message), ⟨"assistant", q.2⟩]),
        ih ([] ++ [(⟨"user", q.1⟩ : Message), ⟨"assistant", q.2⟩]),
        List.nil_append, List.append_assoc]

theorem buildMessages_cons (p : String × String) (h : List (String × String))
    (m : String) :
    buildMessages (p :: h) m =
      ⟨"user", p.1⟩ :: ⟨"assistant", p.2⟩ :: buildMessages h m := by
  unfold buildMessages
  rw [List.foldl_cons, List.nil_append, foldl_msgs_init, List.append_assoc]
  rfl

theorem buildMessages_length (h : List (String × String)) (m : String) :
    (buildMessages h m).length = 2 * h.length + 1 := by
  induction h with
  | nil => rfl
  | cons p h ih =>
      rw [buildMessages_cons]
      simp only [List.length_cons, ih, List.length_cons]
      omega

theorem buildMessages_roles (h : List (String × String)) (m : String)
    (i : Nat) (hi : i < (buildMessages h m).length) :
    ((buildMessages h m).map Message.role)[i]? =
      some (if i % 2 = 0 then "user" else "assistant") := by
  induction h generalizing i with
  | nil =>
      have h0 : i = 0 := by
        have : (buildMessages [] m).length = 1 := rfl
        omega
      subst h0
      rfl
  | cons p h ih =>
      rw [buildMessages_cons] at hi ⊢
      cases i with
      | zero => simp
      | succ i =>
          cases i with
          | zero => simp
          | succ j =>
              simp only [List.map_cons, List.getElem?_cons_succ]
              have hj : j < (buildMessages h m).length := by
                simp only [List.length_cons] at hi
                omega
              rw [ih j hj]
              have hmod : (j + 1 + 1) % 2 = j % 2 := by omega
              rw [hmod]

theorem buildMessages_contents (h : List (String × String)) (m : String) :
    (buildMessages h m).map Message.content =
      (h.flatMap fun p => [p.1, p.2]) ++ [m] := by
  induction h with
  | nil => rfl
  | cons p h ih =>
      rw [buildMessages_cons, List.map_cons, List.map_cons, ih,
        List.flatMap_cons]
      simp

theorem buildMessages_getLast (h : List (String × String)) (m : String) :
    (buildMessages h m).getLast? = some ⟨"user", m⟩ := by
  unfold buildMessages
  exact List.getLast?_concat _

/-- Claim C1: on a backend stream that delivers fragments f1..fn and then
ends normally, chat_with_ollama yields exactly n values, the i-th
(0-based) yielded value is the concatenation of the first i+1 fragments,
and each yielded value extends the previous one by a suffix. -/
theorem claim_C1 (m : String) (h : List (String × String))
    (fs : List String) :
    (chat_with_ollama m h (fun _ => fs.map BEvent.frag)).length =
      fs.length ∧
    (∀ i, i < fs.length →
      (chat_with_ollama m h (fun _ => fs.map BEvent.frag))[i]? =
        some (concatAll (fs.take (i + 1)))) ∧
    (∀ i, i + 1 < fs.length → ∃ p t,
      (chat_with_ollama m h (fun _ => fs.map BEvent.frag))[i]? = some p ∧
      (chat_with_ollama m h (fun _ => fs.map BEvent.frag))[i + 1]? =
        some (p ++ t)) := by
  rw [chat_frags]
  refine ⟨scanAcc_length fs "", fun i hi => ?_, fun i hi => ?_⟩
  · rw [scanAcc_getElem? fs "" i hi, String.empty_append]
  · refine ⟨concatAll (fs.take (i + 1)), fs.get ⟨i + 1, hi⟩, ?_, ?_⟩
    · rw [scanAcc_getElem? fs "" i (Nat.lt_of_succ_lt hi),
        String.empty_append]
    · rw [scanAcc_getElem? fs "" (i + 1) hi, String.empty_append,
        concatAll_take_succ fs (i + 1) hi]

/-- Witness for C1 at the spec scenario fragments Hel, lo!. -/
theorem claim_C1_witness :
    ((chat_with_ollama "Hi" [] fun _ => ["Hel", "lo!"].map BEvent.frag)[1]? =
      some (concatAll (["Hel", "lo!"].take 2))) ∧
    (∃ p t,
      (chat_with_ollama "Hi" [] fun _ => ["Hel", "lo!"].map BEvent.frag)[0]? =
        some p ∧
      (chat_with_ollama "Hi" [] fun _ => ["Hel", "lo!"].map BEvent.frag)[1]? =
        some (p ++ t)) :=
  ⟨(claim_C1 "Hi" [] ["Hel", "lo!"]).2.1 1 (by decide),
   (claim_C1 "Hi" [] ["Hel", "lo!"]).2.2 0 (by decide)⟩

/-- Claim C2: the message list sent to the backend has length
2*len(history)+1, its roles alternate user, assistant, ... ending with
user, its contents are the texts of each exchange in order followed by the new
message, and for empty history it is the single user message. -/
theorem claim_C2 (h : List (String × String)) (m : String) :
    (buildMessages h m).length = 2 * h.length + 1 ∧
    (∀ i, i < (buildMessages h m).length →
      ((buildMessages h m).map Message.role)[i]? =
        some (if i % 2 = 0 then "user" else "assistant")) ∧
    (buildMessages h m).map Message.content =
      (h.flatMap fun p => [p.1, p.2]) ++ [m] ∧
    (buildMessages h m).getLast? = some ⟨"user", m⟩ ∧
    buildMessages [] m = [⟨"user", m⟩] :=
  ⟨buildMessages_length h m, fun i hi => buildMessages_roles h m i hi,
   buildMessages_contents h m, buildMessages_getLast h m, rfl⟩

/-- Witness for C2 on a one-exchange history. -/
theorem claim_C2_witness :
    ((buildMessages [("a", "b")] "c").map Message.role)[1]? =
      some (if 1 % 2 = 0 then "user" else "assistant") :=
  (claim_C2 [("a", "b")] "c").2.1 1 (by decide)

/-- Claim C3: if the backend fails after k fragments (k at least 1),
chat_with_ollama yields k+1 values: the first k are the prefix
concatenations, the last is the synthetic error message, and that final
value is the same whatever fragments were delivered before the failure
(it does not append or contain the accumulated partial response by
construction). -/
theorem claim_C3 (m : String) (h : List (String × String))
    (fs : List String) (e : String) (_hk : 1 ≤ fs.length) :
    (chat_with_ollama m h
        (fun _ => fs.map BEvent.frag ++ [BEvent.err e])).length =
      fs.length + 1 ∧
    (∀ i, i < fs.length →
      (chat_with_ollama m h
          (fun _ => fs.map BEvent.frag ++ [BEvent.err e]))[i]? =
        some (concatAll (fs.take (i + 1)))) ∧
    (chat_with_ollama m h
        (fun _ => fs.map BEvent.frag ++ [BEvent.err e]))[fs.length]? =
      some (error_message e) ∧
    (∀ gs : List String,
      (chat_with_ollama m h
          (fun _ => gs.map BEvent.frag ++ [BEvent.err e])).getLast? =
        some (error_message e)) := by
  rw [chat_frags_err]
  refine ⟨?_, fun i hi => ?_, ?_, fun gs => ?_⟩
  · rw [List.length_append, scanAcc_length]
    rfl
  · rw [List.getElem?_append_left (by rw [scanAcc_length]; exact hi),
      scanAcc_getElem? fs "" i hi, String.empty_append]
  · have hlen : (scanAcc "" fs).length = fs.length := scanAcc_length fs ""
    rw [List.getElem?_append_right (by rw [hlen]), hlen, Nat.sub_self]
    rfl
  · rw [chat_frags_err m h gs e]
    exact List.getLast?_concat _

/-- Witness for C3 with two fragments and then a failure. -/
theorem claim_C3_witness :
    (chat_with_ollama "Hi" []
        (fun _ => ["Hel", "lo!"].map BEvent.frag ++
          [BEvent.err "boom"]))[2]? =
      some (error_message "boom") :=
  (claim_C3 "Hi" [] ["Hel", "lo!"] "boom" (by decide)).2.2.1

/-- Claim C4: if the backend fails before delivering any fragment,
chat_with_ollama yields exactly the single synthetic error message, and no
exception is propagated to the caller. -/
theorem claim_C4 (m : String) (h : List (String × String)) (e : String) :
    chat_with_ollama m h (fun _ => [BEvent.err e]) = [error_message e] ∧
    (chatRun m h (fun _ => [BEvent.err e])).2 = none :=
  ⟨rfl, rfl⟩

/-- Claim C5: for every input and every backend trace, no exception
escapes chat_with_ollama, and the yielded sequence is the values yielded
by the try-body followed by the synthetic error message exactly when the
body raised. -/
theorem claim_C5 (m : String) (h : List (String × String))
    (b : List Message → List BEvent) :
    (chatRun m h b).2 = none ∧
    chat_with_ollama m h b =
      (bodyRun "" (b (buildMessages h m))).1 ++
        (match (bodyRun "" (b (buildMessages h m))).2 with
          | none => []
          | some e => [error_message e]) := by
  unfold chat_with_ollama chatRun
  cases hb : bodyRun "" (b (buildMessages h m)) with
  | mk ys ex => cases ex <;> simp

/-- Claim C9: if the backend stream ends normally with zero fragments,
chat_with_ollama yields no values at all. -/
theorem claim_C9 (m : String) (h : List (String × String)) :
    chat_with_ollama m h (fun _ => []) = [] := rfl

/-- Claim C7: the transcript adaptation is a pure function of the history
and the new message: equal arguments give equal message lists. -/
theorem claim_C7 (h1 h2 : List (String × String)) (m1 m2 : String)
    (hh : h1 = h2) (hm : m1 = m2) :
    buildMessages h1 m1 = buildMessages h2 m2 := by
  rw [hh, hm]

/-- Witness for C7 at a concrete history and message. -/
theorem claim_C7_witness :
    buildMessages [("a", "b")] "c" = buildMessages [("a", "b")] "c" :=
  claim_C7 [("a", "b")] [("a", "b")] "c" "c" rfl rfl

/-- Claim C10: the yielded sequence is a deterministic function of the
message, the history and the backend behaviour at the request payload
actually sent; two backends that agree on that payload produce identical
output sequences. -/
theorem claim_C10 (m : String) (h : List (String × String))
    (b1 b2 : List Message → List BEvent)
    (hb : b1 (buildMessages h m) = b2 (buildMessages h m)) :
    chat_with_ollama m h b1 = chat_with_ollama m h b2 := by
  unfold chat_with_ollama chatRun
  rw [hb]

/-- Witness for C10: two backends that differ away from the actual
payload but agree on it yield the same sequence. -/
theorem claim_C10_witness :
    chat_with_ollama "hi" [] (fun _ => [BEvent.frag "x"]) =
      chat_with_ollama "hi" []
        (fun l => if l.length = 1 then [BEvent.frag "x"] else []) :=
  claim_C10 "hi" [] (fun _ => [BEvent.frag "x"])
    (fun l => if l.length = 1 then [BEvent.frag "x"] else []) (by decide)

/-- Claim C8: the synthetic error string is non-empty, contains the hint
asking whether the Ollama service is running, and contains the configured
model identifier. -/
theorem claim_C8 (e : String) :
    error_message e ≠ "" ∧
    (∃ l r, error_message e =
      l ++ "- Is the Ollama service running? " ++ r) ∧
    (∃ l r, error_message e = l ++ DEFAULT_MODEL ++ r) := by
  refine ⟨?_, ?_, ?_⟩
  · intro hc
    have h2 := congrArg String.length hc
    simp only [error_message, String.length_append, String.length_empty]
      at h2
    have h3 : "An error occurred: ".length = 19 := by decide
    omega
  · exact ⟨"An error occurred: " ++ e ++ ". \n\n",
      "\n- Is the model " ++ squote ++ DEFAULT_MODEL ++ squote ++
        " pulled and spelled correctly?",
      by simp only [error_message, String.append_assoc]⟩
  · exact ⟨"An error occurred: " ++ e ++ ". \n\n" ++
      "- Is the Ollama service running? " ++ "\n- Is the model " ++ squote,
      squote ++ " pulled and spelled correctly?",
      by simp only [error_message, String.append_assoc]⟩

/- ### The adapter on histories whose assistant slot may be None -/

/-- A message whose content slot may be the Python None value, modelled
as an Option: Gradio can hold None as the assistant text of an
in-progress exchange. -/
structure MessageOpt where
  role : String
  content : Option String
deriving DecidableEq

/-- The transcript adapter exactly as the source loop behaves on a
history whose assistant entries may be None: the loop appends bot_msg to
the content slot unchanged, whatever it is. -/
def buildMessagesOpt (history : List (String × Option String))
    (message : String) : List MessageOpt :=
  (history.foldl
    (fun msgs p => msgs ++ [⟨"user", some p.1⟩, ⟨"assistant", p.2⟩]) [])
    ++ [⟨"user", some message⟩]

/-- The adapter as the spec sentence describes it, for comparison: a null
assistant_text is treated as an empty string. -/
def buildMessagesSpecCoerced (history : List (String × Option String))
    (message : String) : List MessageOpt :=
  (history.foldl
    (fun msgs p =>
      msgs ++ [⟨"user", some p.1⟩, ⟨"assistant", some (p.2.getD "")⟩]) [])
    ++ [⟨"user", some message⟩]

theorem foldl_msgsOpt_init (h : List (String × Option String))
    (init : List MessageOpt) :
    h.foldl
        (fun msgs p => msgs ++ [⟨"user", some p.1⟩, ⟨"assistant", p.2⟩])
        init =
      init ++
        h.foldl
          (fun msgs p => msgs ++ [⟨"user", some p.1⟩, ⟨"assistant", p.2⟩])
          [] := by
  induction h generalizing init with
  | nil => simp
  | cons q h ih =>
      rw [List.foldl_cons, List.foldl_cons,
        ih (init ++ [(⟨"user", some q.1⟩ : MessageOpt), ⟨"assistant", q.2⟩]),
        ih ([] ++ [(⟨"user", some q.1⟩ : MessageOpt), ⟨"assistant", q.2⟩]),
        List.nil_append, List.append_assoc]

theorem buildMessagesOpt_cons (p : String × Option String)
    (h : List (String × Option String)) (m : String) :
    buildMessagesOpt (p :: h) m =
      ⟨"user", some p.1⟩ :: ⟨"assistant", p.2⟩ :: buildMessagesOpt h m := by
  unfold buildMessagesOpt
  rw [List.foldl_cons, List.nil_append, foldl_msgsOpt_init,
    List.append_assoc]
  rfl

/-- Counterexample to claim C6 as stated: on the history containing one
exchange with a None assistant text, the source adapter does not produce
the empty-string coercion the spec describes; it emits the None content
unchanged. -/
theorem claim_C6_counterexample :
    buildMessagesOpt [("hi", none)] "m" ≠
      buildMessagesSpecCoerced [("hi", none)] "m" ∧
    (buildMessagesOpt [("hi", none)] "m").map MessageOpt.content =
      [some "hi", none, some "m"] := by
  constructor
  · decide
  · rfl

/-- Claim C6 (amended): a null assistant_text in a history exchange is
passed through unchanged as the content of that message (not coerced to an
empty string, not raised as an error); the adapter is total and emits,
for each exchange in order, the user text and then the assistant slot
verbatim, followed by the new user message. -/
theorem claim_C6 (h : List (String × Option String)) (m : String) :
    buildMessagesOpt h m =
      (h.flatMap fun p => [⟨"user", some p.1⟩, ⟨"assistant", p.2⟩]) ++
        [⟨"user", some m⟩] := by
  induction h with
  | nil => rfl
  | cons p h ih =>
      rw [buildMessagesOpt_cons, ih, List.flatMap_cons]
      simp
